import Mathlib

/-!
Verification of securesystemslib._gpg.dsa (DSA-specific handling routines for
GPG signature verification and key parsing) against its specification.

Byte buffers are modelled as lists of natural numbers (each byte a value
below 256 where it matters).  Python exceptions are modelled with an
explicit error type threaded through `Except`; the one code path that
returns an error object as an ordinary value is modelled by a dedicated
result constructor so that raising and returning stay distinguishable.
-/

namespace Dsa

/-- Errors raised by the routines: parse errors, capability errors and
ValueError-class validation errors. -/
inductive GpgError where
  | PacketParsingError (msg : String)
  | UnsupportedLibraryError (msg : String)
  | ValueError (msg : String)
deriving Repr, DecidableEq

/-- Module-level message used when the cryptography capability is absent. -/
def NO_CRYPTO_MSG : String :=
  "DSA key support for GPG requires the cryptography library"

/-- Python slice data[ptr : ptr + n] on a list of bytes. -/
def sliceAt (data : List Nat) (ptr n : Nat) : List Nat :=
  (data.drop ptr).take n

/-- Big-endian interpretation of a byte list as a natural number. -/
def beBytesToNat (bs : List Nat) : Nat :=
  bs.foldl (fun acc b => acc * 256 + b) 0

/-- Modelled from the spec: securesystemslib._gpg.util.get_mpi_length is not
under src/.  Per the spec, the two length-prefix bytes hold a big-endian
bit length and the byte length of the field is the ceiling of that bit
length divided by 8. -/
def get_mpi_length (data : List Nat) : Nat :=
  (beBytesToNat data + 7) / 8

/-- One MPI decode step at cursor `ptr`, mirroring the inline pattern of
get_pubkey_params and get_signature_params: read the 2-byte length prefix,
slice the declared number of data bytes, and raise PacketParsingError with
the given message when the slice came up short. -/
def parse_mpi (msg : String) (data : List Nat) (ptr : Nat) :
    Except GpgError (List Nat × Nat) :=
  let fieldLength := get_mpi_length (sliceAt data ptr 2)
  let field := sliceAt data (ptr + 2) fieldLength
  if field.length ≠ fieldLength then
    Except.error (GpgError.PacketParsingError msg)
  else
    Except.ok (field, ptr + 2 + fieldLength)

/-- Lowercase hex digit for a value below 16. -/
def hexDigit (d : Nat) : Char :=
  if d < 10 then Char.ofNat (48 + d) else Char.ofNat (87 + d)

/-- binascii.hexlify: each byte becomes two lowercase hex digits. -/
def hexlify (bs : List Nat) : String :=
  String.mk (bs.foldr (fun b acc => hexDigit (b / 16) :: hexDigit (b % 16) :: acc) [])

/-- The DSA public key dict returned by get_pubkey_params: the four
parameters as hex strings under the names y, p, g, q. -/
structure PubkeyParams where
  y : String
  p : String
  g : String
  q : String
deriving Repr, DecidableEq

/-- get_pubkey_params: parse the RFC4880-encoded public-key parameter
buffer as four multi-precision integers p, q, g, y in that order and
return them hex-encoded. -/
def get_pubkey_params (data : List Nat) : Except GpgError PubkeyParams :=
  match parse_mpi ("This MPI was truncated!") data 0 with
  | Except.error e => Except.error e
  | Except.ok (prime_p, ptr1) =>
    match parse_mpi ("This MPI has been truncated!") data ptr1 with
    | Except.error e => Except.error e
    | Except.ok (group_order_q, ptr2) =>
      match parse_mpi ("This MPI has been truncated!") data ptr2 with
      | Except.error e => Except.error e
      | Except.ok (generator, ptr3) =>
        match parse_mpi ("This MPI has been truncated!") data ptr3 with
        | Except.error e => Except.error e
        | Except.ok (value_y, _) =>
          Except.ok ⟨hexlify value_y, hexlify prime_p,
            hexlify generator, hexlify group_order_q⟩

/-- Value of a single hexadecimal digit character (either case), or none. -/
def hexDigitToNat (c : Char) : Option Nat :=
  if 48 ≤ c.toNat ∧ c.toNat ≤ 57 then some (c.toNat - 48)
  else if 97 ≤ c.toNat ∧ c.toNat ≤ 102 then some (c.toNat - 87)
  else if 65 ≤ c.toNat ∧ c.toNat ≤ 70 then some (c.toNat - 55)
  else none

/-- Value of a list of hex digit characters, none if any is invalid. -/
def hexCharsVal (cs : List Char) : Option Nat :=
  cs.foldl (fun acc c => acc.bind (fun a => (hexDigitToNat c).map (fun d => a * 16 + d))) (some 0)

/-- Python int(s, 16): interpret a hex string as a number; an empty string
or a non-hex character raises a ValueError. -/
def intFromHex (s : String) : Except GpgError Nat :=
  if s.data.isEmpty then
    Except.error (GpgError.ValueError ("invalid literal for int() with base 16"))
  else
    match hexCharsVal s.data with
    | none => Except.error (GpgError.ValueError ("invalid literal for int() with base 16"))
    | some v => Except.ok v

/-- binascii.unhexlify on a list of characters: consume hex digits two at a
time; an odd count or a non-hex digit is an error. -/
def unhexChars : List Char → Option (List Nat)
  | [] => some []
  | [_] => none
  | c1 :: c2 :: rest =>
    match hexDigitToNat c1, hexDigitToNat c2, unhexChars rest with
    | some d1, some d2, some bs => some ((d1 * 16 + d2) :: bs)
    | _, _, _ => none

/-- binascii.unhexlify: hex text to bytes; failures are ValueError-class
(binascii.Error derives from ValueError). -/
def unhexlify (s : String) : Except GpgError (List Nat) :=
  match unhexChars s.data with
  | none => Except.error (GpgError.ValueError ("Non-hexadecimal digit found"))
  | some bs => Except.ok bs

/-- The composite DSA signature representation produced by the external
primitive dsautils.encode_dss_signature: a deterministic packaging of the
pair (r, s) that does not alter the numeric values, modelled by the pair
itself. -/
structure DssSignature where
  r : Nat
  s : Nat
deriving Repr, DecidableEq

/-- External primitive dsautils.encode_dss_signature. -/
def encode_dss_signature (r s : Nat) : DssSignature :=
  DssSignature.mk r s

/-- Result of get_signature_params.  The code path taken when the
cryptography capability is absent RETURNS the UnsupportedLibraryError
object as an ordinary value instead of raising it; the `errorValue`
constructor keeps that behaviour distinguishable from a raised error
(which lives in the Except layer). -/
inductive SigParamsValue where
  | sig (v : DssSignature)
  | errorValue (e : GpgError)
deriving Repr, DecidableEq

/-- get_signature_params: parse the RFC4880-encoded signature buffer as two
multi-precision integers r, s and package them via the external
encode_dss_signature primitive.  Mirrors the source exactly: the missing
capability is RETURNED, not raised, and the integer conversions happen in
the order s then r. -/
def get_signature_params (crypto : Bool) (data : List Nat) :
    Except GpgError SigParamsValue :=
  if crypto = false then
    Except.ok (SigParamsValue.errorValue (GpgError.UnsupportedLibraryError NO_CRYPTO_MSG))
  else
    match parse_mpi ("r-value truncated in signature") data 0 with
    | Except.error e => Except.error e
    | Except.ok (r0, ptr) =>
      match parse_mpi ("s-value truncated in signature") data ptr with
      | Except.error e => Except.error e
      | Except.ok (s0, _) =>
        match intFromHex (hexlify s0) with
        | Except.error e => Except.error e
        | Except.ok s =>
          match intFromHex (hexlify r0) with
          | Except.error e => Except.error e
          | Except.ok r => Except.ok (SigParamsValue.sig (encode_dss_signature r s))

/-- pubkey_info["keyval"]["public"]: the four DSA parameters as hex text. -/
structure KeyvalPublic where
  y : String
  g : String
  p : String
  q : String
deriving Repr, DecidableEq

/-- pubkey_info["keyval"]. -/
structure Keyval where
  public : KeyvalPublic
deriving Repr, DecidableEq

/-- The DSA public key dict passed to create_pubkey and verify_signature.
Besides the key material it may carry embedded hash-algorithm hints
("hashes", "method"), which the verification path must ignore. -/
structure PubkeyInfo where
  keyval : Keyval
  hashes : List String
  method : String
deriving Repr, DecidableEq

/-- The external DSAPublicKey object: DSAPublicNumbers(y, DSAParameterNumbers(p, q, g)),
modelled as the record of the four numbers. -/
structure DSAPublicKey where
  p : Nat
  q : Nat
  g : Nat
  y : Nat
deriving Repr, DecidableEq

/-- create_pubkey: build a DSAPublicKey from the hex-encoded parameters of
the pubkey dict; raises UnsupportedLibraryError when the cryptography
capability is absent, and a ValueError when a parameter fails integer
conversion.  The source reads the fields in the order y, g, p, q. -/
def create_pubkey (crypto : Bool) (pubkey_info : PubkeyInfo) :
    Except GpgError DSAPublicKey :=
  if crypto = false then
    Except.error (GpgError.UnsupportedLibraryError NO_CRYPTO_MSG)
  else
    match intFromHex pubkey_info.keyval.public.y with
    | Except.error e => Except.error e
    | Except.ok y =>
      match intFromHex pubkey_info.keyval.public.g with
      | Except.error e => Except.error e
      | Except.ok g =>
        match intFromHex pubkey_info.keyval.public.p with
        | Except.error e => Except.error e
        | Except.ok p =>
          match intFromHex pubkey_info.keyval.public.q with
          | Except.error e => Except.error e
          | Except.ok q => Except.ok (DSAPublicKey.mk p q g y)

/-- The enumerated hash algorithms of securesystemslib._gpg.constants. -/
inductive HashAlg where
  | sha1
  | sha256
  | sha512
deriving Repr, DecidableEq

/-- Modelled from the spec: securesystemslib._gpg.util.get_hashing_class and
the constants module are not under src/.  Per the spec, a lookup from the
small enumerated identifier set (the RFC4880 ids SHA1 = 2, SHA256 = 8,
SHA512 = 10) to a hash implementation; an unrecognized identifier is a
ValueError-class failure. -/
def get_hashing_class (hash_algorithm_id : Nat) : Except GpgError HashAlg :=
  if hash_algorithm_id = 2 then Except.ok HashAlg.sha1
  else if hash_algorithm_id = 8 then Except.ok HashAlg.sha256
  else if hash_algorithm_id = 10 then Except.ok HashAlg.sha512
  else Except.error (GpgError.ValueError ("Hashing algorithm not supported"))

/-- Modelled from the spec: securesystemslib._gpg.util.hash_object is not
under src/.  Per the spec, the digest is hash_function(metadata_trailer ||
content): the trailer bytes strictly precede the content bytes.  The hash
functions themselves are the external hash capability `hashImpl`. -/
def hash_object (hashImpl : HashAlg → List Nat → List Nat)
    (headers : List Nat) (alg : HashAlg) (content : List Nat) : List Nat :=
  hashImpl alg (headers ++ content)

/-- A signature dict: hex text for the metadata trailer bytes and for the
raw signature bytes. -/
structure SignatureObject where
  other_headers : String
  signature : String
deriving Repr, DecidableEq

/-- verify_signature: verify the signature over the content with the DSA
public key.  The external prehashed verification primitive `verifyPrim`
receives the key object, the raw signature bytes, the digest and the hash
algorithm, and reports the boolean verdict (false models the caught
InvalidSignature).  All other failures propagate in the Except layer. -/
def verify_signature (crypto : Bool)
    (hashImpl : HashAlg → List Nat → List Nat)
    (verifyPrim : DSAPublicKey → List Nat → List Nat → HashAlg → Bool)
    (signature_object : SignatureObject) (pubkey_info : PubkeyInfo)
    (content : List Nat) (hash_algorithm_id : Nat) : Except GpgError Bool :=
  if crypto = false then
    Except.error (GpgError.UnsupportedLibraryError NO_CRYPTO_MSG)
  else
    match get_hashing_class hash_algorithm_id with
    | Except.error e => Except.error e
    | Except.ok hasher =>
      match create_pubkey crypto pubkey_info with
      | Except.error e => Except.error e
      | Except.ok pubkey_object =>
        match unhexlify signature_object.other_headers with
        | Except.error e => Except.error e
        | Except.ok oh =>
          match unhexlify signature_object.signature with
          | Except.error e => Except.error e
          | Except.ok sigBytes =>
            if verifyPrim pubkey_object sigBytes (hash_object hashImpl oh hasher content) hasher then
              Except.ok true
            else
              Except.ok false

/-! ### RFC4880 MPI encoding, for the round-trip and extraction claims -/

/-- Big-endian bytes of v, written with exactly n bytes. -/
def natToBeBytes : Nat → Nat → List Nat
  | 0, _ => []
  | n + 1, v => natToBeBytes n (v / 256) ++ [v % 256]

/-- Byte length of the magnitude of v in an MPI: ceil(bitlength(v) / 8). -/
def mpi_byte_length (v : Nat) : Nat :=
  (Nat.size v + 7) / 8

/-- The big-endian magnitude bytes of v in its MPI encoding. -/
def mpi_bytes (v : Nat) : List Nat :=
  natToBeBytes (mpi_byte_length v) v

/-- The RFC4880 MPI encoding of v: 2-byte big-endian bit-length, then the
big-endian magnitude bytes. -/
def mpi_encode (v : Nat) : List Nat :=
  [Nat.size v / 256, Nat.size v % 256] ++ mpi_bytes v

/-- A structurally well-formed MPI field: a 2-byte length prefix followed
by exactly the declared number of data bytes. -/
def validField (f : List Nat) : Prop :=
  2 ≤ f.length ∧ f.length = 2 + get_mpi_length (f.take 2)

instance (f : List Nat) : Decidable (validField f) := by
  unfold validField
  infer_instance

/-- The MPI field starting at ptr declares more bytes than remain. -/
def truncatedAt (data : List Nat) (ptr : Nat) : Prop :=
  data.length - (ptr + 2) < get_mpi_length (sliceAt data ptr 2)

instance (data : List Nat) (ptr : Nat) : Decidable (truncatedAt data ptr) := by
  unfold truncatedAt
  infer_instance

/-- Cursor after one successful MPI decode step, none on truncation. -/
def mpiStep (data : List Nat) (ptr : Nat) : Option Nat :=
  if truncatedAt data ptr then none
  else some (ptr + 2 + get_mpi_length (sliceAt data ptr 2))

/-- Cursor after n successful MPI decode steps from the start. -/
def mpiWalk (data : List Nat) : Nat → Option Nat
  | 0 => some 0
  | n + 1 => (mpiWalk data n).bind (mpiStep data)

theorem length_sliceAt (data : List Nat) (ptr n : Nat) :
    (sliceAt data ptr n).length = min n (data.length - ptr) := by
  simp [sliceAt]

theorem parse_mpi_of_trunc (msg : String) (data : List Nat) (ptr : Nat)
    (h : truncatedAt data ptr) :
    parse_mpi msg data ptr = Except.error (GpgError.PacketParsingError msg) := by
  unfold parse_mpi
  have hlen : (sliceAt data (ptr + 2) (get_mpi_length (sliceAt data ptr 2))).length
      ≠ get_mpi_length (sliceAt data ptr 2) := by
    rw [length_sliceAt]
    unfold truncatedAt at h
    omega
  simp [hlen]

theorem parse_mpi_of_not_trunc (msg : String) (data : List Nat) (ptr : Nat)
    (h : ¬ truncatedAt data ptr) :
    parse_mpi msg data ptr =
      Except.ok (sliceAt data (ptr + 2) (get_mpi_length (sliceAt data ptr 2)),
        ptr + 2 + get_mpi_length (sliceAt data ptr 2)) := by
  unfold parse_mpi
  have hlen : (sliceAt data (ptr + 2) (get_mpi_length (sliceAt data ptr 2))).length
      = get_mpi_length (sliceAt data ptr 2) := by
    rw [length_sliceAt]
    unfold truncatedAt at h
    omega
  simp [hlen]

theorem sliceAt_append_two (pre f rest : List Nat) (h2 : 2 ≤ f.length) :
    sliceAt (pre ++ (f ++ rest)) pre.length 2 = f.take 2 := by
  unfold sliceAt
  rw [List.drop_left, List.take_append_eq_append_take]
  have : 2 - f.length = 0 := by omega
  simp [this]

theorem sliceAt_append_data (pre f rest : List Nat) (hv : validField f) :
    sliceAt (pre ++ (f ++ rest)) (pre.length + 2) (get_mpi_length (f.take 2)) =
      f.drop 2 := by
  obtain ⟨h2, hlen⟩ := hv
  unfold sliceAt
  rw [List.drop_append_eq_append_drop]
  have hpre : pre.length + 2 - pre.length = 2 := by omega
  rw [List.drop_eq_nil_of_le (by omega), hpre, List.nil_append]
  rw [List.drop_append_eq_append_drop]
  have h0 : 2 - f.length = 0 := by omega
  rw [h0, List.drop_zero, List.take_append_eq_append_take]
  have hdlen : (f.drop 2).length = get_mpi_length (f.take 2) := by
    rw [List.length_drop]
    omega
  rw [List.take_of_length_le (le_of_eq hdlen)]
  have hz : get_mpi_length (f.take 2) - (f.drop 2).length = 0 := by omega
  rw [hz]
  simp

theorem parse_mpi_concat (msg : String) (pre f rest : List Nat)
    (hv : validField f) :
    parse_mpi msg (pre ++ (f ++ rest)) pre.length =
      Except.ok (f.drop 2, pre.length + f.length) := by
  have h2 := hv.1
  have hlen := hv.2
  have hdlen : (f.drop 2).length = get_mpi_length (f.take 2) := by
    rw [List.length_drop]
    omega
  unfold parse_mpi
  simp only [sliceAt_append_two pre f rest h2, sliceAt_append_data pre f rest hv]
  rw [if_neg (by simp [hdlen])]
  have : pre.length + 2 + get_mpi_length (f.take 2) = pre.length + f.length := by
    omega
  rw [this]

theorem length_natToBeBytes (n v : Nat) : (natToBeBytes n v).length = n := by
  induction n generalizing v with
  | zero => rfl
  | succ n ih => simp [natToBeBytes, ih]

theorem beBytesToNat_append_byte (bs : List Nat) (b : Nat) :
    beBytesToNat (bs ++ [b]) = beBytesToNat bs * 256 + b := by
  simp [beBytesToNat, List.foldl_append]

theorem beBytesToNat_natToBeBytes (n v : Nat) (h : v < 256 ^ n) :
    beBytesToNat (natToBeBytes n v) = v := by
  induction n generalizing v with
  | zero =>
    simp at h
    simp [natToBeBytes, beBytesToNat, h]
  | succ n ih =>
    have hdiv : v / 256 < 256 ^ n := by
      rw [Nat.div_lt_iff_lt_mul (by norm_num)]
      calc v < 256 ^ (n + 1) := h
        _ = 256 ^ n * 256 := by ring
    rw [natToBeBytes, beBytesToNat_append_byte, ih (v / 256) hdiv]
    have := Nat.div_add_mod v 256
    omega

theorem lt_pow_mpi_byte_length (v : Nat) : v < 256 ^ mpi_byte_length v := by
  have h1 : v < 2 ^ Nat.size v := Nat.lt_size_self v
  have h2 : Nat.size v ≤ 8 * mpi_byte_length v := by
    unfold mpi_byte_length
    omega
  calc v < 2 ^ Nat.size v := h1
    _ ≤ 2 ^ (8 * mpi_byte_length v) := Nat.pow_le_pow_right (by norm_num) h2
    _ = 256 ^ mpi_byte_length v := by
        rw [Nat.pow_mul]

theorem beBytesToNat_mpi_bytes (v : Nat) : beBytesToNat (mpi_bytes v) = v :=
  beBytesToNat_natToBeBytes (mpi_byte_length v) v (lt_pow_mpi_byte_length v)

theorem get_mpi_length_mpi_encode_take (v : Nat) :
    get_mpi_length ((mpi_encode v).take 2) = mpi_byte_length v := by
  have : (mpi_encode v).take 2 = [Nat.size v / 256, Nat.size v % 256] := by
    simp [mpi_encode]
  rw [this]
  unfold get_mpi_length beBytesToNat mpi_byte_length
  simp [List.foldl]
  have := Nat.div_add_mod (Nat.size v) 256
  omega

theorem length_mpi_encode (v : Nat) :
    (mpi_encode v).length = 2 + mpi_byte_length v := by
  simp [mpi_encode, mpi_bytes, length_natToBeBytes]
  omega

theorem validField_mpi_encode (v : Nat) : validField (mpi_encode v) := by
  constructor
  · rw [length_mpi_encode]
    omega
  · rw [length_mpi_encode, get_mpi_length_mpi_encode_take]

theorem mpi_encode_drop_two (v : Nat) : (mpi_encode v).drop 2 = mpi_bytes v := by
  simp [mpi_encode]

/-! ### Extraction on well-formed concatenations -/

theorem get_pubkey_params_concat (f1 f2 f3 f4 rest : List Nat)
    (h1 : validField f1) (h2 : validField f2) (h3 : validField f3)
    (h4 : validField f4) :
    get_pubkey_params (f1 ++ (f2 ++ (f3 ++ (f4 ++ rest)))) =
      Except.ok ⟨hexlify (f4.drop 2), hexlify (f1.drop 2),
        hexlify (f3.drop 2), hexlify (f2.drop 2)⟩ := by
  have p1 : parse_mpi ("This MPI was truncated!")
      (f1 ++ (f2 ++ (f3 ++ (f4 ++ rest)))) 0 =
      Except.ok (f1.drop 2, f1.length) := by
    simpa using parse_mpi_concat ("This MPI was truncated!") []
      f1 (f2 ++ (f3 ++ (f4 ++ rest))) h1
  have p2 : parse_mpi ("This MPI has been truncated!")
      (f1 ++ (f2 ++ (f3 ++ (f4 ++ rest)))) f1.length =
      Except.ok (f2.drop 2, f1.length + f2.length) :=
    parse_mpi_concat ("This MPI has been truncated!") f1
      f2 (f3 ++ (f4 ++ rest)) h2
  have p3 : parse_mpi ("This MPI has been truncated!")
      (f1 ++ (f2 ++ (f3 ++ (f4 ++ rest)))) (f1.length + f2.length) =
      Except.ok (f3.drop 2, f1.length + f2.length + f3.length) := by
    have := parse_mpi_concat ("This MPI has been truncated!") (f1 ++ f2)
      f3 (f4 ++ rest) h3
    simpa [List.append_assoc, List.length_append, Nat.add_assoc] using this
  have p4 : parse_mpi ("This MPI has been truncated!")
      (f1 ++ (f2 ++ (f3 ++ (f4 ++ rest))))
      (f1.length + f2.length + f3.length) =
      Except.ok (f4.drop 2, f1.length + f2.length + f3.length + f4.length) := by
    have := parse_mpi_concat ("This MPI has been truncated!") (f1 ++ (f2 ++ f3))
      f4 rest h4
    simpa [List.append_assoc, List.length_append, Nat.add_assoc] using this
  unfold get_pubkey_params
  rw [p1]
  simp only []
  rw [p2]
  simp only []
  rw [p3]
  simp only []
  rw [p4]

theorem mpiStep_eq_some (data : List Nat) (ptr q : Nat) :
    mpiStep data ptr = some q ↔
      ¬ truncatedAt data ptr ∧
        q = ptr + 2 + get_mpi_length (sliceAt data ptr 2) := by
  unfold mpiStep
  split
  · simp_all
  · simp_all [eq_comm]

theorem hexDigitToNat_hexDigit (d : Nat) (h : d < 16) :
    hexDigitToNat (hexDigit d) = some d := by
  interval_cases d <;> decide

theorem hexCharsVal_from (bs : List Nat) : ∀ acc : Nat, (∀ b ∈ bs, b < 256) →
    List.foldl (fun acc c => acc.bind (fun a => (hexDigitToNat c).map (fun d => a * 16 + d)))
      (some acc)
      (bs.foldr (fun b a => hexDigit (b / 16) :: hexDigit (b % 16) :: a) []) =
    some (bs.foldl (fun a b => a * 256 + b) acc) := by
  induction bs with
  | nil => intro acc _; rfl
  | cons b tail ih =>
    intro acc hb
    have hbhead : b < 256 := hb b (by simp)
    have hdiv : b / 16 < 16 := by omega
    have hmod : b % 16 < 16 := by omega
    have hacc : (acc * 16 + b / 16) * 16 + b % 16 = acc * 256 + b := by
      have := Nat.div_add_mod b 16
      omega
    simp only [List.foldr_cons, List.foldl_cons,
      hexDigitToNat_hexDigit (b / 16) hdiv, hexDigitToNat_hexDigit (b % 16) hmod,
      Option.bind, Option.map, hacc]
    exact ih (acc * 256 + b) (fun x hx => hb x (by simp [hx]))

theorem intFromHex_hexlify (bs : List Nat) (hne : bs ≠ [])
    (hb : ∀ b ∈ bs, b < 256) :
    intFromHex (hexlify bs) = Except.ok (beBytesToNat bs) := by
  cases bs with
  | nil => exact absurd rfl hne
  | cons b tail =>
    have key := hexCharsVal_from (b :: tail) 0 hb
    unfold intFromHex hexCharsVal
    have hdata : (hexlify (b :: tail)).data =
        (b :: tail).foldr (fun b a => hexDigit (b / 16) :: hexDigit (b % 16) :: a) [] := rfl
    rw [hdata]
    rw [if_neg (by simp [List.foldr_cons])]
    rw [key]
    rfl

theorem get_signature_params_concat (g1 g2 rest : List Nat)
    (h1 : validField g1) (h2 : validField g2) :
    get_signature_params true (g1 ++ (g2 ++ rest)) =
      match intFromHex (hexlify (g2.drop 2)) with
      | Except.error e => Except.error e
      | Except.ok s =>
        match intFromHex (hexlify (g1.drop 2)) with
        | Except.error e => Except.error e
        | Except.ok r => Except.ok (SigParamsValue.sig (encode_dss_signature r s)) := by
  have p1 : parse_mpi ("r-value truncated in signature") (g1 ++ (g2 ++ rest)) 0 =
      Except.ok (g1.drop 2, g1.length) := by
    simpa using parse_mpi_concat ("r-value truncated in signature") [] g1 (g2 ++ rest) h1
  have p2 : parse_mpi ("s-value truncated in signature") (g1 ++ (g2 ++ rest)) g1.length =
      Except.ok (g2.drop 2, g1.length + g2.length) :=
    parse_mpi_concat ("s-value truncated in signature") g1 g2 rest h2
  unfold get_signature_params
  rw [if_neg (by simp)]
  rw [p1]
  simp only []
  rw [p2]

/-! ### Characterization of verify_signature -/

theorem verify_signature_ok_iff (hImpl : HashAlg → List Nat → List Nat)
    (vp : DSAPublicKey → List Nat → List Nat → HashAlg → Bool)
    (so : SignatureObject) (pk : PubkeyInfo) (content : List Nat)
    (hid : Nat) (b : Bool) :
    verify_signature true hImpl vp so pk content hid = Except.ok b ↔
      ∃ hasher key oh sb,
        get_hashing_class hid = Except.ok hasher ∧
        create_pubkey true pk = Except.ok key ∧
        unhexlify so.other_headers = Except.ok oh ∧
        unhexlify so.signature = Except.ok sb ∧
        b = vp key sb (hash_object hImpl oh hasher content) hasher := by
  unfold verify_signature
  rw [if_neg (by simp)]
  cases hh : get_hashing_class hid with
  | error e => simp [hh]
  | ok hasher =>
    simp only []
    cases hp : create_pubkey true pk with
    | error e => simp [hp, hh]
    | ok key =>
      simp only []
      cases hoh : unhexlify so.other_headers with
      | error e => simp [hoh, hh, hp]
      | ok oh =>
        simp only []
        cases hsb : unhexlify so.signature with
        | error e => simp [hsb, hh, hp, hoh]
        | ok sb =>
          simp only []
          by_cases hv : vp key sb (hash_object hImpl oh hasher content) hasher = true
          · simp [hv, hh, hp, hoh, hsb, eq_comm]
          · simp only [Bool.not_eq_true] at hv
            simp [hv, hh, hp, hoh, hsb, eq_comm]

theorem verify_signature_no_crypto (hImpl : HashAlg → List Nat → List Nat)
    (vp : DSAPublicKey → List Nat → List Nat → HashAlg → Bool)
    (so : SignatureObject) (pk : PubkeyInfo) (content : List Nat) (hid : Nat) :
    verify_signature false hImpl vp so pk content hid =
      Except.error (GpgError.UnsupportedLibraryError NO_CRYPTO_MSG) := by
  rfl

theorem create_pubkey_keyval_congr (c : Bool) (pk1 pk2 : PubkeyInfo)
    (h : pk1.keyval = pk2.keyval) :
    create_pubkey c pk1 = create_pubkey c pk2 := by
  unfold create_pubkey
  rw [h]

/-! ### Claim theorems -/

/-- C1: the claim says get_signature_params signals (raises) an
UnsupportedLibraryError when the cryptography capability is unavailable and
never returns it as an ordinary value.  The code instead RETURNS the error
object as its ordinary return value on that path (contradicting its own
docstring, which lists UnsupportedLibraryError under Exceptions, and the
sibling functions create_pubkey and verify_signature, which raise): at the
concrete input of an absent capability and an empty buffer the result is an
ok value carrying the error object. -/
theorem claim_C1_error_returned_not_raised :
    get_signature_params false [] =
      Except.ok (SigParamsValue.errorValue
        (GpgError.UnsupportedLibraryError NO_CRYPTO_MSG)) := rfl

/-- C2: verify_signature yields a boolean result exactly when the hash
lookup, key construction and hex decodings all succeed, and that boolean is
exactly the verdict of the external verification primitive (false models
the caught InvalidSignature); every other failure, including the missing
capability, stays in the error layer and is never folded into the
boolean. -/
theorem claim_C2_boolean_result_contract
    (hImpl : HashAlg → List Nat → List Nat)
    (vp : DSAPublicKey → List Nat → List Nat → HashAlg → Bool)
    (so : SignatureObject) (pk : PubkeyInfo) (content : List Nat)
    (hid : Nat) (b : Bool) :
    (verify_signature true hImpl vp so pk content hid = Except.ok b ↔
      ∃ hasher key oh sb,
        get_hashing_class hid = Except.ok hasher ∧
        create_pubkey true pk = Except.ok key ∧
        unhexlify so.other_headers = Except.ok oh ∧
        unhexlify so.signature = Except.ok sb ∧
        b = vp key sb (hash_object hImpl oh hasher content) hasher) ∧
    verify_signature false hImpl vp so pk content hid =
      Except.error (GpgError.UnsupportedLibraryError NO_CRYPTO_MSG) :=
  ⟨verify_signature_ok_iff hImpl vp so pk content hid b,
    verify_signature_no_crypto hImpl vp so pk content hid⟩

/-- C3: whenever verify_signature produces a boolean verdict, the digest
handed to the verification primitive was computed over the metadata
trailer bytes followed by the content bytes, in that order: the hash input
is oh ++ content with the decoded other_headers strictly preceding the
content. -/
theorem claim_C3_digest_trailer_precedes_content
    (crypto : Bool) (hImpl : HashAlg → List Nat → List Nat)
    (vp : DSAPublicKey → List Nat → List Nat → HashAlg → Bool)
    (so : SignatureObject) (pk : PubkeyInfo) (content : List Nat)
    (hid : Nat) (b : Bool)
    (h : verify_signature crypto hImpl vp so pk content hid = Except.ok b) :
    ∃ hasher key oh sb,
      unhexlify so.other_headers = Except.ok oh ∧
      unhexlify so.signature = Except.ok sb ∧
      b = vp key sb (hImpl hasher (oh ++ content)) hasher := by
  cases crypto with
  | false =>
    rw [verify_signature_no_crypto] at h
    exact absurd h (by simp)
  | true =>
    rw [verify_signature_ok_iff] at h
    obtain ⟨hasher, key, oh, sb, _, _, hoh, hsb, hb⟩ := h
    exact ⟨hasher, key, oh, sb, hoh, hsb, hb⟩

/-- Witness for C3 at a concrete successful verification call. -/
theorem claim_C3_witness :
    ∃ hasher key oh sb,
      unhexlify (SignatureObject.mk "aa" "bb").other_headers = Except.ok oh ∧
      unhexlify (SignatureObject.mk "aa" "bb").signature = Except.ok sb ∧
      true = (fun (_ : DSAPublicKey) (_ : List Nat) (_ : List Nat) (_ : HashAlg) => true)
        key sb ((fun (_ : HashAlg) (l : List Nat) => l) hasher (oh ++ [5])) hasher :=
  claim_C3_digest_trailer_precedes_content true
    (fun _ l => l) (fun _ _ _ _ => true)
    (SignatureObject.mk "aa" "bb")
    (PubkeyInfo.mk (Keyval.mk (KeyvalPublic.mk "01" "02" "03" "05")) [] "dsa")
    [5] 2 true (by rfl)

/-- C6: the boolean outcome of verify_signature depends on the public key
dict only through its key material (keyval): two key dicts with identical
keyval but different embedded hash hints ("hashes", "method") give the
same result for every signature object, content and explicit hash
algorithm id — the caller-supplied identifier alone selects the hash. -/
theorem claim_C6_hash_hint_independence
    (pk1 pk2 : PubkeyInfo) (hkv : pk1.keyval = pk2.keyval)
    (crypto : Bool) (hImpl : HashAlg → List Nat → List Nat)
    (vp : DSAPublicKey → List Nat → List Nat → HashAlg → Bool)
    (so : SignatureObject) (content : List Nat) (hid : Nat) :
    verify_signature crypto hImpl vp so pk1 content hid =
      verify_signature crypto hImpl vp so pk2 content hid := by
  unfold verify_signature
  rw [create_pubkey_keyval_congr crypto pk1 pk2 hkv]

/-- Witness for C6 at two concrete key dicts differing only in the
embedded hash hints. -/
theorem claim_C6_witness :
    (PubkeyInfo.mk (Keyval.mk (KeyvalPublic.mk "01" "02" "03" "05"))
        ["pgp+dsa-fips-180-2"] "sha1").keyval =
      (PubkeyInfo.mk (Keyval.mk (KeyvalPublic.mk "01" "02" "03" "05"))
        ["pgp+dsa-other"] "sha512").keyval ∧
    verify_signature true (fun _ l => l) (fun _ _ _ _ => true)
      (SignatureObject.mk "aa" "bb")
      (PubkeyInfo.mk (Keyval.mk (KeyvalPublic.mk "01" "02" "03" "05"))
        ["pgp+dsa-fips-180-2"] "sha1") [5] 8 =
    verify_signature true (fun _ l => l) (fun _ _ _ _ => true)
      (SignatureObject.mk "aa" "bb")
      (PubkeyInfo.mk (Keyval.mk (KeyvalPublic.mk "01" "02" "03" "05"))
        ["pgp+dsa-other"] "sha512") [5] 8 :=
  ⟨by decide,
    claim_C6_hash_hint_independence
      (PubkeyInfo.mk (Keyval.mk (KeyvalPublic.mk "01" "02" "03" "05"))
        ["pgp+dsa-fips-180-2"] "sha1")
      (PubkeyInfo.mk (Keyval.mk (KeyvalPublic.mk "01" "02" "03" "05"))
        ["pgp+dsa-other"] "sha512")
      (by decide) true (fun _ l => l) (fun _ _ _ _ => true)
      (SignatureObject.mk "aa" "bb") [5] 8⟩

/-- C7: an unrecognized hash algorithm id makes verify_signature fail with
a ValueError-class error; since the statement quantifies over every public
key dict — including dicts whose key parameters are malformed and would
themselves fail conversion — the hash resolution demonstrably happens
first, before the public key object is constructed. -/
theorem claim_C7_unrecognized_hash_value_error
    (hImpl : HashAlg → List Nat → List Nat)
    (vp : DSAPublicKey → List Nat → List Nat → HashAlg → Bool)
    (so : SignatureObject) (pk : PubkeyInfo) (content : List Nat)
    (hid : Nat) (h2 : hid ≠ 2) (h8 : hid ≠ 8) (h10 : hid ≠ 10) :
    verify_signature true hImpl vp so pk content hid =
      Except.error (GpgError.ValueError ("Hashing algorithm not supported")) := by
  unfold verify_signature get_hashing_class
  rw [if_neg (by simp)]
  rw [if_neg h2, if_neg h8, if_neg h10]

/-- Witness for C7: the unrecognized id 99 fails with the ValueError even
though the key dict passed alongside has unparseable key material. -/
theorem claim_C7_witness :
    verify_signature true (fun _ l => l) (fun _ _ _ _ => true)
      (SignatureObject.mk "" "")
      (PubkeyInfo.mk (Keyval.mk (KeyvalPublic.mk "zz" "zz" "zz" "zz")) [] "")
      [] 99 =
      Except.error (GpgError.ValueError ("Hashing algorithm not supported")) :=
  claim_C7_unrecognized_hash_value_error (fun _ l => l) (fun _ _ _ _ => true)
    (SignatureObject.mk "" "")
    (PubkeyInfo.mk (Keyval.mk (KeyvalPublic.mk "zz" "zz" "zz" "zz")) [] "")
    [] 99 (by decide) (by decide) (by decide)

theorem size_lt_65536 (v : Nat) (h : v < 2 ^ 16) : Nat.size v < 65536 := by
  have := Nat.size_le.mpr h
  omega

/-- C5: for every encodable tuple (p, q, g, y), applying get_pubkey_params
to the concatenation of their RFC4880 MPI encodings in the order p, q, g, y
returns exactly the mapping with those four values (hex-encoded magnitude
bytes that decode back to the original integers) under the names p, q, g,
y. -/
theorem claim_C5_pubkey_extraction_roundtrip (p q g y : Nat)
    (hp : Nat.size p < 65536) (hq : Nat.size q < 65536)
    (hg : Nat.size g < 65536) (hy : Nat.size y < 65536) :
    get_pubkey_params (mpi_encode p ++ (mpi_encode q ++ (mpi_encode g ++ mpi_encode y))) =
      Except.ok (PubkeyParams.mk (hexlify (mpi_bytes y)) (hexlify (mpi_bytes p))
        (hexlify (mpi_bytes g)) (hexlify (mpi_bytes q))) ∧
    beBytesToNat (mpi_bytes p) = p ∧ beBytesToNat (mpi_bytes q) = q ∧
    beBytesToNat (mpi_bytes g) = g ∧ beBytesToNat (mpi_bytes y) = y := by
  refine ⟨?_, beBytesToNat_mpi_bytes p, beBytesToNat_mpi_bytes q,
    beBytesToNat_mpi_bytes g, beBytesToNat_mpi_bytes y⟩
  have := get_pubkey_params_concat (mpi_encode p) (mpi_encode q) (mpi_encode g)
    (mpi_encode y) [] (validField_mpi_encode p) (validField_mpi_encode q)
    (validField_mpi_encode g) (validField_mpi_encode y)
  simpa [mpi_encode_drop_two] using this

/-- Witness for C5 at the edge values 0 and 1. -/
theorem claim_C5_witness :
    (get_pubkey_params (mpi_encode 0 ++ (mpi_encode 1 ++ (mpi_encode 0 ++ mpi_encode 1))) =
      Except.ok (PubkeyParams.mk (hexlify (mpi_bytes 1)) (hexlify (mpi_bytes 0))
        (hexlify (mpi_bytes 0)) (hexlify (mpi_bytes 1)))) ∧
    beBytesToNat (mpi_bytes 0) = 0 ∧ beBytesToNat (mpi_bytes 1) = 1 ∧
    beBytesToNat (mpi_bytes 0) = 0 ∧ beBytesToNat (mpi_bytes 1) = 1 :=
  claim_C5_pubkey_extraction_roundtrip 0 1 0 1
    (size_lt_65536 0 (by norm_num)) (size_lt_65536 1 (by norm_num))
    (size_lt_65536 0 (by norm_num)) (size_lt_65536 1 (by norm_num))

/-- C8: decoding the RFC4880 MPI encoding of any encodable v returns
byte-for-byte the encoded magnitude bytes, whose length is
ceil(bitlength(v) / 8) and whose big-endian value is v again, and advances
the cursor by 2 plus that byte length. -/
theorem claim_C8_mpi_roundtrip (v : Nat) (hv : Nat.size v < 65536) (msg : String) :
    parse_mpi msg (mpi_encode v) 0 =
      Except.ok (mpi_bytes v, 2 + mpi_byte_length v) ∧
    (mpi_bytes v).length = (Nat.size v + 7) / 8 ∧
    beBytesToNat (mpi_bytes v) = v := by
  refine ⟨?_, ?_, beBytesToNat_mpi_bytes v⟩
  · have := parse_mpi_concat msg [] (mpi_encode v) [] (validField_mpi_encode v)
    simpa [mpi_encode_drop_two, length_mpi_encode] using this
  · simp [mpi_bytes, mpi_byte_length, length_natToBeBytes]

/-- Witness for C8 at v = 5. -/
theorem claim_C8_witness :
    parse_mpi ("m") (mpi_encode 5) 0 =
      Except.ok (mpi_bytes 5, 2 + mpi_byte_length 5) ∧
    (mpi_bytes 5).length = (Nat.size 5 + 7) / 8 ∧
    beBytesToNat (mpi_bytes 5) = 5 :=
  claim_C8_mpi_roundtrip 5 (size_lt_65536 5 (by norm_num)) ("m")

/-- Lowercase hexadecimal digit characters. -/
def isLowerHexChar (c : Char) : Prop :=
  c ∈ ("0123456789abcdef").data

instance (c : Char) : Decidable (isLowerHexChar c) := by
  unfold isLowerHexChar
  infer_instance

theorem isLowerHexChar_hexDigit (d : Nat) (h : d < 16) :
    isLowerHexChar (hexDigit d) := by
  interval_cases d <;> decide

theorem hexlify_chars_lower (bs : List Nat) (hb : ∀ b ∈ bs, b < 256) :
    ∀ c ∈ (hexlify bs).data, isLowerHexChar c := by
  induction bs with
  | nil => intro c hc; exact absurd hc (by simp [hexlify])
  | cons b tail ih =>
    intro c hc
    have hbb : b < 256 := hb b (by simp)
    have hdata : (hexlify (b :: tail)).data =
        hexDigit (b / 16) :: hexDigit (b % 16) :: (hexlify tail).data := rfl
    rw [hdata] at hc
    simp only [List.mem_cons] at hc
    rcases hc with hc | hc | hc
    · rw [hc]; exact isLowerHexChar_hexDigit (b / 16) (by omega)
    · rw [hc]; exact isLowerHexChar_hexDigit (b % 16) (by omega)
    · exact ih (fun x hx => hb x (by simp [hx])) c hc

theorem parse_mpi_field_subset (msg : String) (data : List Nat) (ptr : Nat)
    (f : List Nat) (q : Nat)
    (h : parse_mpi msg data ptr = Except.ok (f, q)) : ∀ b ∈ f, b ∈ data := by
  unfold parse_mpi at h
  by_cases hc : (sliceAt data (ptr + 2) (get_mpi_length (sliceAt data ptr 2))).length
      ≠ get_mpi_length (sliceAt data ptr 2)
  · rw [if_pos hc] at h
    exact absurd h (by simp)
  · rw [if_neg hc] at h
    have hf : f = sliceAt data (ptr + 2) (get_mpi_length (sliceAt data ptr 2)) := by
      have := congrArg (fun x => match x with
        | Except.ok (v, _) => v
        | Except.error _ => f) h
      simpa using this.symm
    intro b hbf
    rw [hf] at hbf
    unfold sliceAt at hbf
    exact (List.drop_sublist (ptr + 2) data).subset
      ((List.take_sublist _ _).subset hbf)

/-- C9: every value in a successfully extracted public-key mapping is
lowercase hexadecimal text: each character of each of the four fields is
one of 0-9 or a-f. -/
theorem claim_C9_lowercase_hex_output (data : List Nat) (r : PubkeyParams)
    (hb : ∀ b ∈ data, b < 256)
    (h : get_pubkey_params data = Except.ok r) :
    (∀ c ∈ r.p.data, isLowerHexChar c) ∧ (∀ c ∈ r.q.data, isLowerHexChar c) ∧
    (∀ c ∈ r.g.data, isLowerHexChar c) ∧ (∀ c ∈ r.y.data, isLowerHexChar c) := by
  unfold get_pubkey_params at h
  cases e1 : parse_mpi ("This MPI was truncated!") data 0 with
  | error e => rw [e1] at h; exact absurd h (by simp)
  | ok v1 =>
    obtain ⟨f1, p1⟩ := v1
    rw [e1] at h
    simp only [] at h
    cases e2 : parse_mpi ("This MPI has been truncated!") data p1 with
    | error e => rw [e2] at h; exact absurd h (by simp)
    | ok v2 =>
      obtain ⟨f2, p2⟩ := v2
      rw [e2] at h
      simp only [] at h
      cases e3 : parse_mpi ("This MPI has been truncated!") data p2 with
      | error e => rw [e3] at h; exact absurd h (by simp)
      | ok v3 =>
        obtain ⟨f3, p3⟩ := v3
        rw [e3] at h
        simp only [] at h
        cases e4 : parse_mpi ("This MPI has been truncated!") data p3 with
        | error e => rw [e4] at h; exact absurd h (by simp)
        | ok v4 =>
          obtain ⟨f4, p4⟩ := v4
          rw [e4] at h
          simp only [Except.ok.injEq] at h
          have hr := h.symm
          have hf1 := parse_mpi_field_subset _ data 0 f1 p1 e1
          have hf2 := parse_mpi_field_subset _ data p1 f2 p2 e2
          have hf3 := parse_mpi_field_subset _ data p2 f3 p3 e3
          have hf4 := parse_mpi_field_subset _ data p3 f4 p4 e4
          rw [hr]
          exact ⟨hexlify_chars_lower f1 (fun x hx => hb x (hf1 x hx)),
            hexlify_chars_lower f2 (fun x hx => hb x (hf2 x hx)),
            hexlify_chars_lower f3 (fun x hx => hb x (hf3 x hx)),
            hexlify_chars_lower f4 (fun x hx => hb x (hf4 x hx))⟩

/-- Witness for C9 at a concrete four-field buffer. -/
theorem claim_C9_witness :
    (∀ c ∈ (PubkeyParams.mk "04" "ab" "03" "02").p.data, isLowerHexChar c) ∧
    (∀ c ∈ (PubkeyParams.mk "04" "ab" "03" "02").q.data, isLowerHexChar c) ∧
    (∀ c ∈ (PubkeyParams.mk "04" "ab" "03" "02").g.data, isLowerHexChar c) ∧
    (∀ c ∈ (PubkeyParams.mk "04" "ab" "03" "02").y.data, isLowerHexChar c) :=
  claim_C9_lowercase_hex_output
    [0, 8, 171, 0, 8, 2, 0, 8, 3, 0, 8, 4]
    (PubkeyParams.mk "04" "ab" "03" "02")
    (by decide) (by rfl)

/-- C10 counterexample: the claim promises success on every well-formed
field concatenation followed by a suffix, but a zero-length MPI field is
well formed and makes get_signature_params fail: on the two valid fields
[0, 0] (bit length 0, no data bytes) and [0, 1, 1] followed by the extra
byte 7, the integer conversion of the empty r-value raises a ValueError,
so extraction does not succeed. -/
theorem claim_C10_counterexample :
    validField ([0, 0]) ∧ validField ([0, 1, 1]) ∧
    get_signature_params true ([0, 0] ++ ([0, 1, 1] ++ [7])) =
      Except.error (GpgError.ValueError ("invalid literal for int() with base 16")) :=
  ⟨by decide, by decide, by rfl⟩

/-- C10 (amended): trailing bytes are silently ignored — on a well-formed
concatenation of the required MPI fields followed by any suffix both
extractors return exactly the same outcome as without the suffix, and
never signal an error for unconsumed input; get_pubkey_params moreover
always succeeds, while get_signature_params succeeds provided each of its
two fields has nonzero declared data length (a zero-length field fails the
integer conversion with a ValueError, with or without the suffix). -/
theorem claim_C10_trailing_bytes_ignored_amended
    (f1 f2 f3 f4 sfx g1 g2 sfx2 : List Nat)
    (h1 : validField f1) (h2 : validField f2) (h3 : validField f3)
    (h4 : validField f4) (hg1 : validField g1) (hg2 : validField g2)
    (hb1 : ∀ b ∈ g1, b < 256) (hb2 : ∀ b ∈ g2, b < 256) :
    get_pubkey_params (f1 ++ (f2 ++ (f3 ++ (f4 ++ sfx)))) =
      get_pubkey_params (f1 ++ (f2 ++ (f3 ++ f4))) ∧
    (∃ r, get_pubkey_params (f1 ++ (f2 ++ (f3 ++ f4))) = Except.ok r) ∧
    get_signature_params true (g1 ++ (g2 ++ sfx2)) =
      get_signature_params true (g1 ++ g2) ∧
    (2 < g1.length → 2 < g2.length →
      ∃ v, get_signature_params true (g1 ++ g2) =
        Except.ok (SigParamsValue.sig v)) := by
  have A := get_pubkey_params_concat f1 f2 f3 f4 sfx h1 h2 h3 h4
  have B := get_pubkey_params_concat f1 f2 f3 f4 [] h1 h2 h3 h4
  rw [List.append_nil] at B
  have SA := get_signature_params_concat g1 g2 sfx2 hg1 hg2
  have SB := get_signature_params_concat g1 g2 [] hg1 hg2
  rw [List.append_nil] at SB
  refine ⟨A.trans B.symm, ⟨_, B⟩, SA.trans SB.symm, ?_⟩
  intro hl1 hl2
  have hne1 : g1.drop 2 ≠ [] := by
    have hlen : (g1.drop 2).length ≠ 0 := by
      rw [List.length_drop]
      omega
    intro hcon
    rw [hcon] at hlen
    simp at hlen
  have hne2 : g2.drop 2 ≠ [] := by
    have hlen : (g2.drop 2).length ≠ 0 := by
      rw [List.length_drop]
      omega
    intro hcon
    rw [hcon] at hlen
    simp at hlen
  have hbd1 : ∀ b ∈ g1.drop 2, b < 256 :=
    fun b hbm => hb1 b ((List.drop_sublist 2 g1).subset hbm)
  have hbd2 : ∀ b ∈ g2.drop 2, b < 256 :=
    fun b hbm => hb2 b ((List.drop_sublist 2 g2).subset hbm)
  rw [SB, intFromHex_hexlify (g2.drop 2) hne2 hbd2]
  simp only []
  rw [intFromHex_hexlify (g1.drop 2) hne1 hbd1]
  exact ⟨_, rfl⟩

/-- Witness for the amended C10 at concrete fields and suffixes. -/
theorem claim_C10_witness :
    get_pubkey_params (([0, 8, 170] : List Nat) ++
        ([0, 8, 171] ++ ([0, 8, 172] ++ ([0, 8, 173] ++ [9, 9])))) =
      get_pubkey_params ([0, 8, 170] ++ ([0, 8, 171] ++ ([0, 8, 172] ++ [0, 8, 173]))) ∧
    (∃ r, get_pubkey_params (([0, 8, 170] : List Nat) ++
        ([0, 8, 171] ++ ([0, 8, 172] ++ [0, 8, 173]))) = Except.ok r) ∧
    get_signature_params true (([0, 8, 1] : List Nat) ++ ([0, 8, 2] ++ [3])) =
      get_signature_params true ([0, 8, 1] ++ [0, 8, 2]) ∧
    (2 < ([0, 8, 1] : List Nat).length → 2 < ([0, 8, 2] : List Nat).length →
      ∃ v, get_signature_params true (([0, 8, 1] : List Nat) ++ [0, 8, 2]) =
        Except.ok (SigParamsValue.sig v)) :=
  claim_C10_trailing_bytes_ignored_amended
    [0, 8, 170] [0, 8, 171] [0, 8, 172] [0, 8, 173] [9, 9]
    [0, 8, 1] [0, 8, 2] [3]
    (by decide) (by decide) (by decide) (by decide) (by decide) (by decide)
    (by decide) (by decide)

/-- C4: whenever the sequential MPI walk reaches a field whose declared
byte length exceeds the bytes actually remaining (after n previously
successful fields), get_pubkey_params (for n among its four fields) and
get_signature_params (for n among its two fields) raise a
PacketParsingError and return no partial value. -/
theorem claim_C4_truncation_detected (data : List Nat) (n ptr : Nat)
    (hw : mpiWalk data n = some ptr) (ht : truncatedAt data ptr) :
    (n < 4 → ∃ msg, get_pubkey_params data =
      Except.error (GpgError.PacketParsingError msg)) ∧
    (n < 2 → ∃ msg, get_signature_params true data =
      Except.error (GpgError.PacketParsingError msg)) := by
  cases n with
  | zero =>
    have hptr : ptr = 0 := by
      have := hw
      simp [mpiWalk] at this
      omega
    subst hptr
    constructor
    · intro _
      refine ⟨"This MPI was truncated!", ?_⟩
      unfold get_pubkey_params
      rw [parse_mpi_of_trunc ("This MPI was truncated!") data 0 ht]
    · intro _
      refine ⟨"r-value truncated in signature", ?_⟩
      unfold get_signature_params
      rw [if_neg (by simp)]
      rw [parse_mpi_of_trunc ("r-value truncated in signature") data 0 ht]
  | succ n1 =>
    cases n1 with
    | zero =>
      have hs : mpiStep data 0 = some ptr := by
        simpa [mpiWalk] using hw
      obtain ⟨h0, hptr⟩ := (mpiStep_eq_some data 0 ptr).mp hs
      constructor
      · intro _
        refine ⟨"This MPI has been truncated!", ?_⟩
        unfold get_pubkey_params
        rw [parse_mpi_of_not_trunc ("This MPI was truncated!") data 0 h0]
        simp only []
        rw [← hptr, parse_mpi_of_trunc ("This MPI has been truncated!") data ptr ht]
      · intro _
        refine ⟨"s-value truncated in signature", ?_⟩
        unfold get_signature_params
        rw [if_neg (by simp)]
        rw [parse_mpi_of_not_trunc ("r-value truncated in signature") data 0 h0]
        simp only []
        rw [← hptr, parse_mpi_of_trunc ("s-value truncated in signature") data ptr ht]
    | succ n2 =>
      cases n2 with
      | zero =>
        have hw2 : (mpiStep data 0).bind (mpiStep data) = some ptr := by
          simpa [mpiWalk] using hw
        cases hs0 : mpiStep data 0 with
        | none =>
          rw [hs0] at hw2
          exact absurd hw2 (by simp)
        | some q1 =>
          rw [hs0] at hw2
          have hw2b : mpiStep data q1 = some ptr := by simpa using hw2
          obtain ⟨h0, hq1⟩ := (mpiStep_eq_some data 0 q1).mp hs0
          obtain ⟨h1, hptr⟩ := (mpiStep_eq_some data q1 ptr).mp hw2b
          constructor
          · intro _
            refine ⟨"This MPI has been truncated!", ?_⟩
            unfold get_pubkey_params
            rw [parse_mpi_of_not_trunc ("This MPI was truncated!") data 0 h0]
            simp only []
            rw [← hq1, parse_mpi_of_not_trunc ("This MPI has been truncated!") data q1 h1]
            simp only []
            rw [← hptr, parse_mpi_of_trunc ("This MPI has been truncated!") data ptr ht]
          · intro hlt
            omega
      | succ n3 =>
        cases n3 with
        | zero =>
          have hw3 : ((mpiStep data 0).bind (mpiStep data)).bind (mpiStep data) =
              some ptr := by
            simpa [mpiWalk] using hw
          cases hs0 : mpiStep data 0 with
          | none =>
            rw [hs0] at hw3
            exact absurd hw3 (by simp)
          | some q1 =>
            rw [hs0] at hw3
            have hw3b : (mpiStep data q1).bind (mpiStep data) = some ptr := by
              simpa using hw3
            cases hs1 : mpiStep data q1 with
            | none =>
              rw [hs1] at hw3b
              exact absurd hw3b (by simp)
            | some q2 =>
              rw [hs1] at hw3b
              have hw3c : mpiStep data q2 = some ptr := by simpa using hw3b
              obtain ⟨h0, hq1⟩ := (mpiStep_eq_some data 0 q1).mp hs0
              obtain ⟨h1, hq2⟩ := (mpiStep_eq_some data q1 q2).mp hs1
              obtain ⟨h2, hptr⟩ := (mpiStep_eq_some data q2 ptr).mp hw3c
              constructor
              · intro _
                refine ⟨"This MPI has been truncated!", ?_⟩
                unfold get_pubkey_params
                rw [parse_mpi_of_not_trunc ("This MPI was truncated!") data 0 h0]
                simp only []
                rw [← hq1, parse_mpi_of_not_trunc ("This MPI has been truncated!") data q1 h1]
                simp only []
                rw [← hq2, parse_mpi_of_not_trunc ("This MPI has been truncated!") data q2 h2]
                simp only []
                rw [← hptr, parse_mpi_of_trunc ("This MPI has been truncated!") data ptr ht]
              · intro hlt
                omega
        | succ n4 =>
          constructor <;> (intro hlt; omega)

/-- Witness for C4: the buffer [0, 9, 255] declares a 9-bit (2-byte) first
field but holds a single data byte, so both extractors raise a
PacketParsingError. -/
theorem claim_C4_witness :
    (0 < 4 → ∃ msg, get_pubkey_params [0, 9, 255] =
      Except.error (GpgError.PacketParsingError msg)) ∧
    (0 < 2 → ∃ msg, get_signature_params true [0, 9, 255] =
      Except.error (GpgError.PacketParsingError msg)) :=
  claim_C4_truncation_detected [0, 9, 255] 0 0 (by rfl) (by decide)

end Dsa
